import Mathlib

/-!
Verification of the retrieval-augmented reply pipeline of the
Aarogya-AI-HealthMate backend (`backend/main.py`, with the collaborator
facades `backend/services/llm.py` and `backend/services/retrieval.py`).

Strings are modelled as `List Char`.  Python semantics are embedded
faithfully:

* `text.lower()`            → `pyLower` (ASCII case folding);
* `x in y` (substring test) → `containsSub`;
* `text.split(sep)`         → `splitOnSub` (fuel-based, total);
* `text.strip()`            → `pyStripWs`;
* `text.strip("- ")`        → `pyStripChars "- ".data`;
* `a or b` on strings       → `pyOr` (first truthy operand);
* `sep.join(xs)`            → `List.intercalate`.

The external collaborators (the Gemini SDK call, the custom `LLMClient`
call, and the retrieval index search) are modelled as oracle fields of a
`Behavior` record: each call site receives either a returned value
(`Except.ok`) or a raised exception carrying a message (`Except.error`),
exactly the two outcomes the Python `try`/`except` sites distinguish.
The module-level environment flags of `backend/main.py` are the fields of
`Config`.
-/

/-- Python strings, modelled as lists of characters. -/
abbrev Str := List Char

/-- Shorthand turning a Lean string literal into the `List Char` model. -/
def str (x : String) : Str := x.data

/-- Python `str.isspace` characters relevant to `str.strip()` (ASCII). -/
def isPyWs (c : Char) : Bool :=
  c = ' ' || c = '\t' || c = '\n' || c = '\x0d' || c = '\x0b' || c = '\x0c'

/-- Python `text.strip()`: remove leading and trailing whitespace. -/
def pyStripWs (t : Str) : Str :=
  ((t.dropWhile isPyWs).reverse.dropWhile isPyWs).reverse

/-- Python `text.strip(chars)`: remove leading and trailing characters
belonging to the set `cs`. -/
def pyStripChars (cs : Str) (t : Str) : Str :=
  ((t.dropWhile (cs.contains ·)).reverse.dropWhile (cs.contains ·)).reverse

/-- Python `text.lower()` (ASCII case folding, which covers every string
appearing in the program). -/
def pyLower (t : Str) : Str := t.map Char.toLower

/-- Python `a or b` for strings: `b` if `a` is falsy (empty), else `a`. -/
def pyOr (a b : Str) : Str := if a.isEmpty then b else a

/-- Index of the first occurrence of `sep` in `t`, if any. -/
def findSub (sep : Str) : Str → Option Nat
  | [] => if sep.isEmpty then some 0 else none
  | c :: rest =>
    if sep.isPrefixOf (c :: rest) then some 0
    else (findSub sep rest).map (· + 1)

/-- Python `sep in t` — substring containment. -/
def containsSub (sep t : Str) : Bool := (findSub sep t).isSome

/-- Fuel-based worker for `splitOnSub`; the fuel makes the recursion
structural so that proofs can evaluate it inside the kernel. -/
def splitFuel (sep : Str) : Nat → Str → List Str
  | 0, t => [t]
  | fuel + 1, t =>
    match findSub sep t with
    | none => [t]
    | some i => t.take i :: splitFuel sep fuel (t.drop (i + sep.length))

/-- Python `t.split(sep)` for a non-empty separator: the list of segments
between consecutive non-overlapping occurrences of `sep`, scanned left to
right.  `t.length + 1` units of fuel always suffice because every
occurrence consumes at least one character. -/
def splitOnSub (sep t : Str) : List Str := splitFuel sep (t.length + 1) t

/-! ## The embedded program -/

/-- `EMERGENCY_KEYWORDS` from `backend/main.py` lines 67–76. -/
def EMERGENCY_KEYWORDS : List Str :=
  [str "chest pain",
   str "difficulty breathing",
   str "trouble breathing",
   str "shortness of breath",
   str "suicidal",
   str "suicide",
   str "fainting",
   str "severe bleeding"]

/-- `contains_emergency_keywords` from `backend/main.py` lines 106–108. -/
def contains_emergency_keywords (text : Str) : Bool :=
  let lowered := pyLower text
  EMERGENCY_KEYWORDS.any (fun keyword => containsSub keyword lowered)

/-- The process-wide behaviour flags of `backend/main.py` (lines 38–40, 47,
79), immutable for a run. -/
structure Config where
  genai_available : Bool
  FULL_GEMINI : Bool
  USE_CONTEXT : Bool
  FAISS_FALLBACK : Bool
  SHOW_EMERGENCY_NOTICE : Bool

/-- Outcomes of the three external collaborator calls for one request.
`Except.error e` models the call raising an exception whose message is
`e`; `Except.ok v` models a normal return of `v`. -/
structure Behavior where
  retrieverSearch : Except Str (List Str)
  gemini : Str → Except Str Str
  llmClient : Str → Option (List Str) → Except Str Str

/-- The fixed placeholder list returned by `Retriever.search`
(`backend/services/retrieval.py` lines 43–46) when the index is not
loaded or the similarity search raises. -/
def placeholderContext : List Str :=
  [str "General hydration and rest advice.",
   str "Consult a healthcare professional for persistent symptoms."]

/-- `Retriever.search` from `backend/services/retrieval.py` lines 34–46:
`loaded` is `self.loaded` (and the index being present), `idxSearch` is
the outcome of `self._index.similarity_search` mapped to page contents. -/
def Retriever.search (loaded : Bool) (idxSearch : Except Str (List Str)) : List Str :=
  if loaded then
    match idxSearch with
    | Except.ok docs => docs
    | Except.error _ => placeholderContext
  else
    placeholderContext

/-- `retrieve_context` from `backend/main.py` lines 124–130: the outcome
of `Retriever().search(query, k=4)`; an exception yields `[]`. -/
def retrieve_context (beh : Behavior) : List Str :=
  match beh.retrieverSearch with
  | Except.ok blocks => blocks
  | Except.error _ => []

/-- `SYSTEM_PROMPT` from `backend/main.py` lines 82–86. -/
def SYSTEM_PROMPT : Str :=
  str "You are an AI healthcare assistant. Answer the user's question fully and clearly, providing step-by-step, well-structured explanations when helpful. Use everyday language and add practical tips. Avoid adding disclaimers unless asked."

/-- `generate_via_llm` from `backend/main.py` lines 132–160.  Tier 1 is
the Gemini SDK call, guarded by `_genai_available and FULL_GEMINI`; a
raised exception or a whitespace-only text falls through to tier 2, the
`LLMClient().generate` call, whose own exception yields `""`.  (In the
source the f-string at line 144 uses doubly escaped backslashes, so the
context header contains literal backslash-n characters, reproduced
here.) -/
def exceptToEmpty : Except Str Str → Str
  | Except.ok t => t
  | Except.error _ => []

/-- The body of the Gemini `try` block at `backend/main.py` lines
140–152: a returned text is stripped and, when non-empty, returned;
otherwise (empty text or raised exception) control falls through to
`tier2`. -/
def geminiOr (r : Except Str Str) (tier2 : Str) : Str :=
  match r with
  | Except.ok t =>
    let text := pyStripWs t
    if text.isEmpty then tier2 else text
  | Except.error _ => tier2

def generate_via_llm (cfg : Config) (beh : Behavior) (prompt : Str)
    (context_blocks : Option (List Str)) : Str :=
  let tier2 : Str :=
    exceptToEmpty (beh.llmClient prompt (if cfg.USE_CONTEXT then context_blocks else none))
  if cfg.genai_available && cfg.FULL_GEMINI then
    let blocks := context_blocks.getD []
    let ctx :=
      if !blocks.isEmpty && cfg.USE_CONTEXT then List.intercalate (str "\n\n") blocks
      else []
    let final_prompt :=
      SYSTEM_PROMPT ++ str "\n\n" ++
      (if ctx.isEmpty then [] else str "Context:\\n" ++ ctx ++ str "\\n\\n") ++
      str "User: " ++ prompt ++ str "\nAssistant:"
    geminiOr (beh.gemini final_prompt) tier2
  else
    tier2

/-- `format_as_markdown` from `backend/main.py` lines 162–166. -/
def format_as_markdown (section_title text_block : Str) : Str :=
  let lines :=
    ((splitOnSub (str "\n") text_block).filter
        (fun line => !(pyStripWs line).isEmpty)).map
      (fun line => pyStripWs (pyStripChars (str "- ") line))
  let bullets := List.intercalate (str "\n") (lines.map (fun line => str "- " ++ line))
  if !bullets.isEmpty then str "**" ++ section_title ++ str ":**\n" ++ bullets
  else str "**" ++ section_title ++ str ":**\n" ++ text_block

/-- `block.split(startM)[1].split(stopM)[0].strip()` — the marker
extraction pattern used by every fallback rule in `backend/main.py`
lines 185–209 (always guarded by `startM in block`). -/
def extractSection (startM stopM block : Str) : Str :=
  pyStripWs ((splitOnSub stopM ((splitOnSub startM block).getD 1 [])).getD 0 [])

/-- The `if`/`elif` chain applied to one context block inside the `for`
loop of `backend/main.py` lines 183–203 (rules 1–5): the first matching
rule, if any, with its extracted answer. -/
def ruleOf (lower_msg block : Str) : Option Str :=
  if containsSub (str "symptom") lower_msg && containsSub (str "Common Symptoms:") block then
    some (format_as_markdown (str "Common Symptoms")
      (extractSection (str "Common Symptoms:") (str "General Advice") block))
  else if (containsSub (str "advice") lower_msg || containsSub (str "self-care") lower_msg)
      && containsSub (str "General Advice") block then
    some (format_as_markdown (str "General Advice / Self-care")
      (extractSection (str "General Advice") (str "Prevention") block))
  else if containsSub (str "prevention") lower_msg && containsSub (str "Prevention Tips:") block then
    some (format_as_markdown (str "Prevention Tips")
      (extractSection (str "Prevention Tips:") (str "When to Seek") block))
  else if (containsSub (str "when to seek") lower_msg || containsSub (str "medical help") lower_msg)
      && containsSub (str "When to Seek") block then
    some (format_as_markdown (str "When to Seek Medical Help")
      (extractSection (str "When to Seek") (str "Disclaimer") block))
  else if containsSub (str "overview") lower_msg && containsSub (str "Overview:") block then
    some (str "**Overview:**\n" ++ extractSection (str "Overview:") (str "Common Symptoms") block)
  else
    none

/-- The `for block in context` loop of `backend/main.py` lines 183–203:
blocks are scanned in order and the first block on which any of rules
1–5 fires decides the answer (`break`). -/
def scanBlocks (lower_msg : Str) : List Str → Option Str
  | [] => none
  | block :: rest =>
    match ruleOf lower_msg block with
    | some a => some a
    | none => scanBlocks lower_msg rest

/-- The generic-question cues of `backend/main.py` line 205. -/
def genericCues : List Str :=
  [str "tell me", str "about", str "what is", str "details"]

/-- The guarded Overview extraction of `backend/main.py` line 207. -/
def rule6Overview (block : Str) : Str :=
  if containsSub (str "Overview:") block then
    extractSection (str "Overview:") (str "Common Symptoms") block
  else []

/-- The guarded Common Symptoms extraction of `backend/main.py` line 208. -/
def rule6Symptoms (block : Str) : Str :=
  if containsSub (str "Common Symptoms:") block then
    extractSection (str "Common Symptoms:") (str "General Advice") block
  else []

/-- The guarded General Advice extraction of `backend/main.py` line 209. -/
def rule6Advice (block : Str) : Str :=
  if containsSub (str "General Advice") block then
    extractSection (str "General Advice") (str "Prevention") block
  else []

/-- The `parts` list built in `backend/main.py` lines 210–213: the three
sections of the first context block, in order, skipping empty ones. -/
def rule6Parts (block : Str) : List Str :=
  (if (rule6Overview block).isEmpty then []
   else [str "**Overview:**\n" ++ rule6Overview block]) ++
  (if (rule6Symptoms block).isEmpty then []
   else [format_as_markdown (str "Common Symptoms") (rule6Symptoms block)]) ++
  (if (rule6Advice block).isEmpty then []
   else [format_as_markdown (str "General Advice / Self-care") (rule6Advice block)])

/-- The short default of `backend/main.py` line 219. -/
def innerDefault : Str := str "Sorry, I could not generate a response."

/-- The terminal default of `backend/main.py` line 223. -/
def retryDefault : Str :=
  str "Sorry, I could not generate a response at this moment. Please try again."

/-- The emergency notice appended at `backend/main.py` line 228 (without
its two leading newlines). -/
def emergencyNotice : Str :=
  str "⚠️ **Emergency Notice:** If symptoms are severe or worsening, please seek immediate medical help."

/-- The `answer` variable at the end of the FAISS fallback block of
`backend/main.py` lines 180–217: the rule loop (lines 183–203), then the
generic-question composite (lines 205–214, guarded by `answer is None`),
then the verbatim first block (lines 216–217, guarded by `not answer`). -/
def answerOf (lower_msg : Str) (context : List Str) : Option Str :=
  let answer0 : Option Str := scanBlocks lower_msg context
  let answer1 : Option Str :=
    if answer0.isNone && (genericCues.any (fun x => containsSub x lower_msg))
        && !context.isEmpty then
      let parts := rule6Parts (context.headD [])
      if !parts.isEmpty then some (List.intercalate (str "\n\n") parts) else answer0
    else answer0
  if (answer1.getD []).isEmpty && !context.isEmpty then
    some (str "Here’s what I found:\n\n" ++ context.headD [])
  else answer1

/-- The FAISS fallback block of `backend/main.py` lines 179–219, entered
with `llm_answer` empty: the `answer` computation followed by
`answer or llm_answer or "Sorry, I could not generate a response."`. -/
def fallbackTier (message : Str) (context : List Str) (llm_answer : Str) : Str :=
  pyOr ((answerOf (pyLower message) context).getD []) (pyOr llm_answer innerDefault)

/-- The context actually used by `build_reply` (`backend/main.py` line
173): retrieval runs only when it might be needed. -/
def contextOf (cfg : Config) (beh : Behavior) : List Str :=
  if cfg.USE_CONTEXT || cfg.FAISS_FALLBACK then retrieve_context beh else []

/-- The final `llm_answer` of `build_reply` just before the emergency
notice is considered (`backend/main.py` lines 173–223). -/
def composedAnswer (cfg : Config) (beh : Behavior) (message : Str) : Str :=
  let context := contextOf cfg beh
  let llm0 := generate_via_llm cfg beh message (if cfg.USE_CONTEXT then some context else none)
  let llm1 :=
    if llm0.isEmpty && cfg.FAISS_FALLBACK && !context.isEmpty then
      fallbackTier message context llm0
    else llm0
  if llm1.isEmpty then retryDefault else llm1

/-- `ChatResponse` from `backend/main.py` lines 93–95. -/
structure ChatResponse where
  reply : Str
  emergency_recommended : Bool
deriving DecidableEq

/-- `build_reply` from `backend/main.py` lines 169–230. -/
def build_reply (cfg : Config) (beh : Behavior) (message : Str) : ChatResponse :=
  let recommend_emergency := contains_emergency_keywords message
  let reply :=
    composedAnswer cfg beh message ++
    (if recommend_emergency && cfg.SHOW_EMERGENCY_NOTICE then
      str "\n\n" ++ emergencyNotice
    else [])
  { reply := reply, emergency_recommended := recommend_emergency }

/-! ## General lemmas about the string model -/

theorem findSub_isSome_iff (sep : Str) : ∀ t : Str, (findSub sep t).isSome = true ↔ sep <:+: t := by
  intro t
  induction t with
  | nil =>
    simp only [findSub, List.infix_nil]
    split <;> simp_all [List.isEmpty_iff]
  | cons a rest ih =>
    simp only [findSub]
    by_cases h : sep.isPrefixOf (a :: rest) = true
    · simp only [h, if_true, Option.isSome_some, true_iff]
      exact (List.isPrefixOf_iff_prefix.mp h).isInfix
    · rw [if_neg h]
      simp only [Option.isSome_map']
      rw [ih, List.infix_cons_iff]
      constructor
      · exact Or.inr
      · rintro (hp | hi)
        · exact absurd (List.isPrefixOf_iff_prefix.mpr hp) h
        · exact hi

theorem containsSub_iff (sep t : Str) : containsSub sep t = true ↔ sep <:+: t := by
  rw [containsSub, findSub_isSome_iff]

theorem findSub_none_of_absent {sep t : Str} (h : ¬ sep <:+: t) : findSub sep t = none := by
  cases hfs : findSub sep t with
  | none => rfl
  | some i => exact absurd ((findSub_isSome_iff sep t).mp (by rw [hfs]; rfl)) h

theorem findSub_some_prefix (sep : Str) : ∀ (t : Str) (i : Nat), findSub sep t = some i → sep <+: t.drop i := by
  intro t
  induction t with
  | nil =>
    intro i h
    simp only [findSub] at h
    split at h
    · rename_i hsep
      cases h
      simpa [List.isEmpty_iff] using hsep
    · cases h
  | cons a rest ih =>
    intro i h
    simp only [findSub] at h
    split at h
    · rename_i hp
      cases h
      simpa using List.isPrefixOf_iff_prefix.mp hp
    · rcases Option.map_eq_some'.mp h with ⟨j, hj, rfl⟩
      simpa using ih j hj

theorem findSub_some_bound {sep t : Str} {i : Nat} (hsep : sep ≠ []) (h : findSub sep t = some i) :
    i + sep.length ≤ t.length := by
  have hp := findSub_some_prefix sep t i h
  have hl := hp.length_le
  rw [List.length_drop] at hl
  have hpos : 0 < sep.length := List.length_pos.mpr hsep
  omega

theorem splitFuel_ne_nil (sep : Str) : ∀ (fuel : Nat) (t : Str), splitFuel sep fuel t ≠ [] := by
  intro fuel t
  match fuel with
  | 0 => simp [splitFuel]
  | fuel + 1 =>
    simp only [splitFuel]
    split <;> simp

theorem splitFuel_singleton (sep : Str) : ∀ (fuel : Nat) (t x : Str), splitFuel sep fuel t = [x] → x = t := by
  intro fuel t x h
  match fuel with
  | 0 =>
    simp only [splitFuel] at h
    exact (List.cons.injEq .. ▸ h).1.symm
  | fuel + 1 =>
    simp only [splitFuel] at h
    split at h
    · exact (List.cons.injEq .. ▸ h).1.symm
    · rename_i i hi
      have := (List.cons.injEq .. ▸ h).2
      exact absurd this (splitFuel_ne_nil sep fuel _)

theorem splitFuel_of_findSub_none {sep t : Str} (h : findSub sep t = none) :
    ∀ fuel, splitFuel sep fuel t = [t] := by
  intro fuel
  match fuel with
  | 0 => rfl
  | fuel + 1 => simp [splitFuel, h]

theorem splitFuel_stable (sep : Str) (hsep : sep ≠ []) :
    ∀ (f₁ f₂ : Nat) (t : Str), t.length < f₁ → t.length < f₂ →
      splitFuel sep f₁ t = splitFuel sep f₂ t := by
  intro f₁
  induction f₁ with
  | zero => intro f₂ t h1; omega
  | succ a ih =>
    intro f₂ t h1 h2
    match f₂ with
    | 0 => omega
    | b + 1 =>
      cases hf : findSub sep t with
      | none => simp only [splitFuel, hf]
      | some i =>
        simp only [splitFuel, hf]
        have hb := findSub_some_bound hsep hf
        have hpos : 0 < sep.length := List.length_pos.mpr hsep
        have hdrop : (t.drop (i + sep.length)).length < t.length := by
          rw [List.length_drop]; omega
        rw [ih b (t.drop (i + sep.length)) (by omega) (by omega)]

theorem splitOnSub_eq_splitFuel (sep : Str) (hsep : sep ≠ []) {fuel : Nat} (t : Str)
    (h : t.length < fuel) : splitFuel sep fuel t = splitOnSub sep t := by
  rw [splitOnSub, splitFuel_stable sep hsep fuel (t.length + 1) t h (by omega)]

theorem splitOnSub_of_absent {sep t : Str} (h : ¬ sep <:+: t) : splitOnSub sep t = [t] :=
  splitFuel_of_findSub_none (findSub_none_of_absent h) _

theorem splitOnSub_pair {sep t a b : Str} (h : splitOnSub sep t = [a, b]) :
    t = a ++ sep ++ b := by
  rw [splitOnSub] at h
  cases hf : findSub sep t with
  | none => rw [splitFuel_of_findSub_none hf] at h; simp at h
  | some i =>
    simp only [splitFuel, hf, List.cons.injEq] at h
    obtain ⟨ha, htail⟩ := h
    have hb : b = t.drop (i + sep.length) := splitFuel_singleton sep _ _ _ htail
    obtain ⟨u, hu⟩ := findSub_some_prefix sep t i hf
    have hu' : u = t.drop (i + sep.length) := by
      have h1 : List.drop sep.length (sep ++ u) = u := List.drop_left sep u
      rw [hu] at h1
      rw [← h1]
      exact List.drop_drop _ _ _
    subst ha
    subst hb
    rw [List.append_assoc]
    conv_lhs => rw [← List.take_append_drop i t]
    congr 1
    rw [← hu, hu']

theorem findSub_cons_pos {sep : Str} {a : Char} {rest : Str}
    (h : sep.isPrefixOf (a :: rest) = true) : findSub sep (a :: rest) = some 0 := by
  simp [findSub, h]

theorem findSub_cons_neg {sep : Str} {a : Char} {rest : Str}
    (h : sep.isPrefixOf (a :: rest) = false) :
    findSub sep (a :: rest) = (findSub sep rest).map (· + 1) := by
  simp [findSub, h]

theorem splitFuel_succ_of_findSub_some {sep t : Str} {i fuel : Nat}
    (h : findSub sep t = some i) :
    splitFuel sep (fuel + 1) t = t.take i :: splitFuel sep fuel (t.drop (i + sep.length)) := by
  simp only [splitFuel, h]

theorem splitOnSub_cons_single (c a : Char) (rest : Str) :
    splitOnSub [c] (a :: rest) =
      if a = c then [] :: splitOnSub [c] rest
      else (splitOnSub [c] rest).modifyHead (a :: ·) := by
  have hlen : (a :: rest).length + 1 = rest.length + 1 + 1 := by simp
  by_cases hac : a = c
  · subst hac
    have h1 : ([a] : Str).isPrefixOf (a :: rest) = true := by simp [List.isPrefixOf]
    have h2 : findSub [a] (a :: rest) = some 0 := findSub_cons_pos h1
    rw [if_pos rfl, splitOnSub, hlen, splitFuel_succ_of_findSub_some h2]
    simp [splitOnSub]
  · have h1 : ([c] : Str).isPrefixOf (a :: rest) = false := by
      simp only [List.isPrefixOf, List.isPrefixOf_nil_left, Bool.and_true]
      exact beq_eq_false_iff_ne.mpr fun h => hac h.symm
    have h2 : findSub [c] (a :: rest) = (findSub [c] rest).map (· + 1) := findSub_cons_neg h1
    rw [if_neg hac, splitOnSub, hlen]
    cases hfr : findSub [c] rest with
    | none =>
      have h3 : findSub [c] (a :: rest) = none := by rw [h2, hfr]; rfl
      rw [splitFuel_of_findSub_none h3, splitOnSub, splitFuel_of_findSub_none hfr]
      rfl
    | some j =>
      have h3 : findSub [c] (a :: rest) = some (j + 1) := by rw [h2, hfr]; rfl
      rw [splitFuel_succ_of_findSub_some h3, splitOnSub, splitFuel_succ_of_findSub_some hfr]
      have hb : j + 1 ≤ rest.length := by
        have := findSub_some_bound (by simp : ([c] : Str) ≠ []) hfr
        simpa using this
      have hstab : splitFuel [c] (rest.length + 1) (rest.drop (j + 1))
          = splitFuel [c] rest.length (rest.drop (j + 1)) := by
        apply splitFuel_stable _ (by simp) _ _ _ <;> (rw [List.length_drop]; omega)
      simp only [List.length_cons, List.length_nil, Nat.zero_add, List.take_succ_cons,
        List.drop_succ_cons, List.modifyHead_cons]
      rw [hstab]

theorem splitOnSub_singleChar (c : Char) (t : Str) : splitOnSub [c] t = List.splitOn c t := by
  induction t with
  | nil => rfl
  | cons a rest ih =>
    have hsp : List.splitOnP (· == c) rest = List.splitOn c rest := rfl
    rw [splitOnSub_cons_single, List.splitOn, List.splitOnP_cons, hsp]
    by_cases hac : a = c
    · rw [if_pos hac, if_pos (by simp [hac]), ih]
    · rw [if_neg hac, if_neg (by simp [hac]), ih]

/-! ## Structural lemmas about the pipeline -/

theorem bool_ite_not {α : Sort _} (X : Bool) (u v : α) :
    (if (!X) = true then u else v) = if X = true then v else u := by
  cases X <;> rfl

/-- The amended formatting contract for the bulleted-section formatter,
written from the specification's words over the library's line splitter
`List.splitOn`, independently of the embedded Python `split`. -/
def format_as_markdown_spec (section_title text_block : Str) : Str :=
  let kept := (List.splitOn '\n' text_block).filter (fun line => !(pyStripWs line).isEmpty)
  let cleaned := kept.map (fun line => pyStripWs (pyStripChars (str "- ") line))
  let bullets := List.intercalate (str "\n") (cleaned.map (fun line => str "- " ++ line))
  if bullets.isEmpty then str "**" ++ section_title ++ str ":**\n" ++ text_block
  else str "**" ++ section_title ++ str ":**\n" ++ bullets

theorem format_as_markdown_head (title text : Str) :
    ∃ r, format_as_markdown title text = str "**" ++ title ++ str ":**\n" ++ r := by
  simp only [format_as_markdown]
  split
  · exact ⟨_, rfl⟩
  · exact ⟨_, rfl⟩

theorem format_as_markdown_star {title text : Str} :
    str "**" <+: format_as_markdown title text := by
  obtain ⟨r, hr⟩ := format_as_markdown_head title text
  rw [hr]
  simp only [List.append_assoc]
  exact List.prefix_append _ _

theorem format_as_markdown_bold_prefix (title text : Str) :
    (str "**" ++ title ++ str ":**\n") <+: format_as_markdown title text := by
  obtain ⟨r, hr⟩ := format_as_markdown_head title text
  rw [hr]
  exact ⟨r, rfl⟩

theorem format_as_markdown_ne_nil (title text : Str) :
    format_as_markdown title text ≠ [] := by
  obtain ⟨r, hr⟩ := format_as_markdown_head title text
  rw [hr]
  exact List.append_ne_nil_of_left_ne_nil
    (List.append_ne_nil_of_left_ne_nil
      (List.append_ne_nil_of_left_ne_nil (by decide) _) _) _

theorem ruleOf_star {lmsg block r : Str} (h : ruleOf lmsg block = some r) :
    str "**" <+: r := by
  unfold ruleOf at h
  split_ifs at h
  · injection h with h; subst h; exact format_as_markdown_star
  · injection h with h; subst h; exact format_as_markdown_star
  · injection h with h; subst h; exact format_as_markdown_star
  · injection h with h; subst h; exact format_as_markdown_star
  · injection h with h; subst h
    exact List.IsPrefix.trans (by decide) (List.prefix_append _ _)

theorem scanBlocks_star {lmsg : Str} : ∀ {ctx : List Str} {r : Str},
    scanBlocks lmsg ctx = some r → str "**" <+: r := by
  intro ctx
  induction ctx with
  | nil => intro r h; simp [scanBlocks] at h
  | cons b rest ih =>
    intro r h
    cases hr : ruleOf lmsg b with
    | some a =>
      simp only [scanBlocks, hr] at h
      injection h with h
      subst h
      exact ruleOf_star hr
    | none =>
      simp only [scanBlocks, hr] at h
      exact ih h

theorem scanBlocks_skip {lmsg : Str} : ∀ (pre rest : List Str),
    (∀ b ∈ pre, ruleOf lmsg b = none) →
    scanBlocks lmsg (pre ++ rest) = scanBlocks lmsg rest := by
  intro pre
  induction pre with
  | nil => intro rest _; rfl
  | cons p ps ih =>
    intro rest hpre
    have hp : ruleOf lmsg p = none := hpre p (List.mem_cons_self ..)
    simp only [List.cons_append, scanBlocks, hp]
    exact ih rest (fun b hb => hpre b (List.mem_cons_of_mem _ hb))

theorem rule6Parts_star {block p : Str} (h : p ∈ rule6Parts block) :
    str "**" <+: p := by
  simp only [rule6Parts, List.mem_append] at h
  rcases h with (h | h) | h
  · revert h
    split
    · simp
    · intro h
      rw [List.mem_singleton] at h
      subst h
      exact List.IsPrefix.trans (by decide) (List.prefix_append _ _)
  · revert h
    split
    · simp
    · intro h
      rw [List.mem_singleton] at h
      subst h
      exact format_as_markdown_star
  · revert h
    split
    · simp
    · intro h
      rw [List.mem_singleton] at h
      subst h
      exact format_as_markdown_star

theorem intercalate_star (sep : Str) : ∀ {parts : List Str}, parts ≠ [] →
    (∀ q ∈ parts, str "**" <+: q) → str "**" <+: List.intercalate sep parts := by
  intro parts hne hall
  match parts, hne with
  | [p], _ =>
    rw [show List.intercalate sep [p] = p from by simp [List.intercalate]]
    exact hall p (by simp)
  | p :: q :: zs, _ =>
    rw [show List.intercalate sep (p :: q :: zs)
        = p ++ (sep ++ List.intercalate sep (q :: zs)) from by
      simp [List.intercalate, List.intersperse_cons₂]]
    exact List.IsPrefix.trans (hall p (by simp)) (List.prefix_append _ _)

theorem cons_ne_innerDefault {c : Char} {r : Str} (hc : c ≠ 'S') :
    (c :: r) ≠ [] ∧ (c :: r) ≠ innerDefault := by
  refine ⟨by simp, fun h => ?_⟩
  have h2 : innerDefault.head? = some 'S' := by decide
  have h1 : (c :: r).head? = innerDefault.head? := by rw [h]
  rw [h2] at h1
  simp only [List.head?_cons, Option.some.injEq] at h1
  exact hc h1

theorem star_ne_innerDefault {a : Str} (h : str "**" <+: a) :
    a ≠ [] ∧ a ≠ innerDefault := by
  obtain ⟨r, hr⟩ := h
  have hc : a = '*' :: ('*' :: r) := by rw [← hr]; rfl
  rw [hc]
  exact cons_ne_innerDefault (by decide)

theorem heres_ne_innerDefault {a : Str} (h : str "Here’s what I found:" <+: a) :
    a ≠ [] ∧ a ≠ innerDefault := by
  obtain ⟨r, hr⟩ := h
  have hc : a = 'H' :: (str "ere’s what I found:" ++ r) := by rw [← hr]; rfl
  rw [hc]
  exact cons_ne_innerDefault (by decide)

theorem answerOf_resolves (lmsg : Str) (ctx : List Str) (h : ctx ≠ []) :
    ∃ a, answerOf lmsg ctx = some a ∧
      (str "**" <+: a ∨ str "Here’s what I found:" <+: a) := by
  have hce : ctx.isEmpty = false := by simpa [List.isEmpty_iff] using h
  cases h0 : scanBlocks lmsg ctx with
  | some r =>
    have hstar := scanBlocks_star h0
    obtain ⟨rr, hrr⟩ := hstar
    have hrne : r ≠ [] := by
      rw [← hrr]
      exact List.append_ne_nil_of_left_ne_nil (by decide) _
    refine ⟨r, ?_, Or.inl ⟨rr, hrr⟩⟩
    simp [answerOf, h0, hrne]
  | none =>
    by_cases hcue : (genericCues.any (fun x => containsSub x lmsg)) = true
    · by_cases hparts : (rule6Parts (ctx.head?.getD ([] : Str))).isEmpty = true
      · have hpeq : rule6Parts (ctx.head?.getD ([] : Str)) = [] := List.isEmpty_iff.mp hparts
        refine ⟨str "Here’s what I found:\n\n" ++ ctx.headD [], ?_, Or.inr ?_⟩
        · simp [answerOf, h0, hcue, hpeq, hce]
        · exact ⟨str "\n\n" ++ ctx.headD [], by rw [← List.append_assoc]; rfl⟩
      · have hpneq : rule6Parts (ctx.head?.getD ([] : Str)) ≠ [] := by
          intro hc
          rw [hc] at hparts
          simp at hparts
        have hstar := intercalate_star (str "\n\n") hpneq
          (fun q hq => rule6Parts_star hq)
        obtain ⟨rr, hrr⟩ := hstar
        have hIneq : List.intercalate (str "\n\n") (rule6Parts (ctx.head?.getD ([] : Str)))
            ≠ [] := by
          rw [← hrr]
          exact List.append_ne_nil_of_left_ne_nil (by decide) _
        refine ⟨_, ?_, Or.inl ⟨rr, hrr⟩⟩
        simp [answerOf, h0, hcue, hce, hpneq, hIneq]
    · refine ⟨str "Here’s what I found:\n\n" ++ ctx.headD [], ?_, Or.inr ?_⟩
      · simp [answerOf, h0, hcue, hce]
      · exact ⟨str "\n\n" ++ ctx.headD [], by rw [← List.append_assoc]; rfl⟩

theorem fallbackTier_resolves (msg : Str) (ctx : List Str) (h : ctx ≠ []) :
    fallbackTier msg ctx [] ≠ [] ∧ fallbackTier msg ctx [] ≠ innerDefault := by
  obtain ⟨a, ha, hshape⟩ := answerOf_resolves (pyLower msg) ctx h
  have hane : a ≠ [] ∧ a ≠ innerDefault := by
    rcases hshape with hs | hs
    · exact star_ne_innerDefault hs
    · exact heres_ne_innerDefault hs
  have heq : fallbackTier msg ctx [] = a := by
    rw [fallbackTier, ha]
    simp [pyOr, List.isEmpty_iff, hane.1]
  rw [heq]
  exact hane

/-- Replacing both generator oracles by ones that return an empty text
normally; retrieval is untouched. -/
def silenceGenerator (beh : Behavior) : Behavior :=
  { beh with gemini := fun _ => Except.ok [], llmClient := fun _ _ => Except.ok [] }

theorem exceptToEmpty_eq_nil {r : Except Str Str}
    (h : ∀ t, r = Except.ok t → t = []) : exceptToEmpty r = [] := by
  cases r with
  | ok t => exact h t rfl
  | error e => rfl

theorem geminiOr_eq_of_empty {r : Except Str Str} {tier2 : Str}
    (hr : ∀ t, r = Except.ok t → pyStripWs t = []) : geminiOr r tier2 = tier2 := by
  cases r with
  | ok t => simp [geminiOr, hr t rfl]
  | error e => rfl

theorem generate_via_llm_of_failing (cfg : Config) (beh : Behavior) (prompt : Str)
    (blocks : Option (List Str))
    (hg : ∀ p t, beh.gemini p = Except.ok t → pyStripWs t = [])
    (hl : ∀ p c t, beh.llmClient p c = Except.ok t → t = []) :
    generate_via_llm cfg beh prompt blocks = [] := by
  have h2 : exceptToEmpty
      (beh.llmClient prompt (if cfg.USE_CONTEXT then blocks else none)) = [] :=
    exceptToEmpty_eq_nil (fun t ht => hl _ _ t ht)
  simp only [generate_via_llm]
  split
  · rw [geminiOr_eq_of_empty (fun t ht => hg _ t ht)]
    exact h2
  · exact h2

theorem generate_via_llm_silenced (cfg : Config) (beh : Behavior) (prompt : Str)
    (blocks : Option (List Str)) :
    generate_via_llm cfg (silenceGenerator beh) prompt blocks = [] := by
  simp only [generate_via_llm, silenceGenerator]
  split <;> rfl

theorem ite_retry_ne_nil (x : Str) : (if x.isEmpty then retryDefault else x) ≠ [] := by
  by_cases h : x.isEmpty = true
  · rw [if_pos h]; decide
  · rw [if_neg h]; simpa [List.isEmpty_iff] using h

theorem composedAnswer_ne_nil (cfg : Config) (beh : Behavior) (message : Str) :
    composedAnswer cfg beh message ≠ [] := by
  simp only [composedAnswer]
  exact ite_retry_ne_nil _

/-- C9 (amended): `format_as_markdown` splits the text into lines,
keeps the lines with non-whitespace content, strips from each all
leading and trailing characters in the set {'-', ' '} and then
surrounding whitespace (so trailing hyphens are removed too, interior
hyphens are unchanged), joins the results as a markdown bullet list
under a bolded title, and when no non-empty line remains emits the
bolded title followed by the raw text unchanged — stated as equality
with `format_as_markdown_spec`, the same contract written over the
library splitter `List.splitOn`. -/
theorem c9_amended_format (title text : Str) :
    format_as_markdown title text = format_as_markdown_spec title text := by
  have hnl : str "\n" = ['\n'] := rfl
  simp only [format_as_markdown, format_as_markdown_spec, hnl, splitOnSub_singleChar]
  rw [bool_ite_not]

/-! ## Claim theorems -/

/-- C1: for every message, configuration and collaborator behavior,
`build_reply` reports `emergency_recommended = true` exactly when the
lowercased message contains one of the eight fixed emergency phrases as
a substring. -/
theorem c1_emergency_iff (cfg : Config) (beh : Behavior) (message : Str) :
    (build_reply cfg beh message).emergency_recommended = true ↔
      ∃ keyword ∈ EMERGENCY_KEYWORDS, keyword <:+: pyLower message := by
  have h : (build_reply cfg beh message).emergency_recommended
      = contains_emergency_keywords message := rfl
  rw [h]
  simp only [contains_emergency_keywords, List.any_eq_true, containsSub_iff]

/-- C2: for every message, every combination of configuration flags and
every behavior of the collaborators (both failing included), the reply
returned by `build_reply` is non-empty. -/
theorem c2_reply_nonempty (cfg : Config) (beh : Behavior) (message : Str) :
    (build_reply cfg beh message).reply ≠ [] := by
  have h : (build_reply cfg beh message).reply
      = composedAnswer cfg beh message ++
        (if contains_emergency_keywords message && cfg.SHOW_EMERGENCY_NOTICE then
          str "\n\n" ++ emergencyNotice
        else []) := rfl
  rw [h]
  exact List.append_ne_nil_of_left_ne_nil (composedAnswer_ne_nil cfg beh message) _

/-- C7: whenever the message triggers emergency detection and the
notice-visibility flag is set, the reply is exactly the composed answer
followed by two newlines and the fixed emergency notice — appended, not
replacing, so the notice is a suffix separated by a blank line. -/
theorem c7_notice_appended (cfg : Config) (beh : Behavior) (message : Str)
    (h1 : contains_emergency_keywords message = true)
    (h2 : cfg.SHOW_EMERGENCY_NOTICE = true) :
    (build_reply cfg beh message).reply
      = composedAnswer cfg beh message ++ (str "\n\n" ++ emergencyNotice) ∧
    (str "\n\n" ++ emergencyNotice) <:+ (build_reply cfg beh message).reply := by
  have hval : (build_reply cfg beh message).reply
      = composedAnswer cfg beh message ++ (str "\n\n" ++ emergencyNotice) := by
    simp [build_reply, h1, h2]
  exact ⟨hval, hval ▸ List.suffix_append _ _⟩

/-- Witness for C7 at the message "I have chest pain" with the notice
flag enabled. -/
theorem c7_witness :
    (build_reply ⟨false, false, false, false, true⟩
        ⟨Except.ok [], fun _ => Except.ok [], fun _ _ => Except.ok []⟩
        (str "I have chest pain")).reply
      = composedAnswer ⟨false, false, false, false, true⟩
          ⟨Except.ok [], fun _ => Except.ok [], fun _ _ => Except.ok []⟩
          (str "I have chest pain") ++ (str "\n\n" ++ emergencyNotice) ∧
    (str "\n\n" ++ emergencyNotice) <:+
      (build_reply ⟨false, false, false, false, true⟩
        ⟨Except.ok [], fun _ => Except.ok [], fun _ _ => Except.ok []⟩
        (str "I have chest pain")).reply :=
  c7_notice_appended _ _ _ (by decide) rfl

/-- C4: for every configuration, message and context argument, if every
normal return of the Gemini oracle strips to empty and every normal
return of the `LLMClient` oracle is empty — i.e. the Generator either
raises or returns an empty string — then `generate_via_llm` yields the
empty string, and `build_reply` behaves exactly as with a generator that
silently returns empty text: the failure reaches neither the caller nor
the reply, and no error message text can enter the reply. -/
theorem c4_generator_failure_contained (cfg : Config) (beh : Behavior) (message : Str)
    (blocks : Option (List Str))
    (hg : ∀ p t, beh.gemini p = Except.ok t → pyStripWs t = [])
    (hl : ∀ p c t, beh.llmClient p c = Except.ok t → t = []) :
    generate_via_llm cfg beh message blocks = [] ∧
    build_reply cfg beh message = build_reply cfg (silenceGenerator beh) message := by
  refine ⟨generate_via_llm_of_failing cfg beh message blocks hg hl, ?_⟩
  have hctx : contextOf cfg (silenceGenerator beh) = contextOf cfg beh := rfl
  have hA : ∀ b, generate_via_llm cfg beh message b = [] :=
    fun b => generate_via_llm_of_failing cfg beh message b hg hl
  simp only [build_reply, composedAnswer, hctx, hA, generate_via_llm_silenced]

/-- A behavior whose generator oracles always raise. -/
def failingBehavior : Behavior :=
  ⟨Except.ok [str "some retrieved block"],
   fun _ => Except.error (str "gemini unavailable"),
   fun _ _ => Except.error (str "client unavailable")⟩

/-- Witness for C4 at a behavior whose two generator oracles raise. -/
theorem c4_witness :
    generate_via_llm ⟨true, true, true, true, true⟩ failingBehavior (str "hello") none = [] ∧
    build_reply ⟨true, true, true, true, true⟩ failingBehavior (str "hello")
      = build_reply ⟨true, true, true, true, true⟩ (silenceGenerator failingBehavior)
          (str "hello") :=
  c4_generator_failure_contained ⟨true, true, true, true, true⟩ failingBehavior
    (str "hello") none
    (fun _ _ h => by simp [failingBehavior] at h)
    (fun _ _ _ h => by simp [failingBehavior] at h)

/-- C5 (counterexample): the index being missing is a failing Retriever
behavior, yet `Retriever.search` then returns the fixed two-block
placeholder list, which `retrieve_context` passes through unchanged —
the context is substitute text, not the empty list the claim requires. -/
theorem c5_counterexample :
    Retriever.search false (Except.error (str "index missing")) = placeholderContext ∧
    retrieve_context ⟨Except.ok (Retriever.search false (Except.error (str "index missing"))),
      fun _ => Except.ok [], fun _ _ => Except.ok []⟩ = placeholderContext ∧
    placeholderContext ≠ [] := by
  refine ⟨rfl, rfl, by decide⟩

/-- C5 (amended): `build_reply` consults the retriever exactly when the
context-inclusion or fallback flag is set (else the context is `[]`),
and an exception raised by `Retriever().search` yields `[]`; however the
repository's `Retriever.search` does not raise on retrieval failure —
a missing index or a failed similarity search yields the fixed
two-block placeholder list instead. -/
theorem c5_amended (cfg : Config) (beh : Behavior) (e : Str)
    (idx : Except Str (List Str)) :
    contextOf { cfg with USE_CONTEXT := false, FAISS_FALLBACK := false } beh = [] ∧
    contextOf { cfg with USE_CONTEXT := true } beh = retrieve_context beh ∧
    contextOf { cfg with FAISS_FALLBACK := true } beh = retrieve_context beh ∧
    retrieve_context { beh with retrieverSearch := Except.error e } = [] ∧
    Retriever.search false idx = placeholderContext ∧
    Retriever.search true (Except.error e) = placeholderContext := by
  refine ⟨rfl, ?_, ?_, rfl, rfl, rfl⟩
  · simp [contextOf]
  · simp [contextOf]

set_option maxRecDepth 1000000 in
/-- C3 (counterexample): with message "symptom advice" and context
blocks [B0, B1] where only B1 satisfies rule 1 while B0 satisfies rule
2, the reply is the rule-2 extraction from B0, not the rule-1
extraction from B1 predicted by the claim. -/
theorem c3_counterexample :
    (build_reply ⟨false, true, false, true, true⟩
        ⟨Except.ok [str "General Advice rest\nPrevention",
            str "Common Symptoms: cough\nGeneral Advice x"],
          fun _ => Except.error (str "gemini down"), fun _ _ => Except.ok []⟩
        (str "symptom advice")).reply
      = str "**General Advice / Self-care:**\n- rest" ∧
    ruleOf (pyLower (str "symptom advice")) (str "Common Symptoms: cough\nGeneral Advice x")
      = some (str "**Common Symptoms:**\n- cough") ∧
    str "**General Advice / Self-care:**\n- rest" ≠ str "**Common Symptoms:**\n- cough" := by
  refine ⟨by decide, by decide, by decide⟩

/-- C3 (amended): the scan is block-major — context blocks are scanned
in order, each against rules 1–5 in order, and the first block on which
any rule fires decides the answer with its lowest-numbered firing rule;
blocks on which no rule fires are skipped. -/
theorem c3_amended (lmsg b : Str) (pre post : List Str)
    (hpre : ∀ x ∈ pre, ruleOf lmsg x = none)
    (hb : (ruleOf lmsg b).isSome = true) :
    scanBlocks lmsg (pre ++ b :: post) = ruleOf lmsg b := by
  rw [scanBlocks_skip pre (b :: post) hpre]
  obtain ⟨a, ha⟩ := Option.isSome_iff_exists.mp hb
  simp [scanBlocks, ha]

set_option maxRecDepth 1000000 in
/-- Witness for C3 (amended): a non-matching first block is skipped and
the second block's rule decides. -/
theorem c3_witness :
    scanBlocks (str "symptom advice")
        ([str "no markers here"] ++ str "Common Symptoms: cough\nGeneral Advice x" :: [])
      = ruleOf (str "symptom advice") (str "Common Symptoms: cough\nGeneral Advice x") :=
  c3_amended (str "symptom advice") (str "Common Symptoms: cough\nGeneral Advice x")
    [str "no markers here"] []
    (fun x hx => by rw [List.mem_singleton] at hx; subst hx; decide)
    (by decide)

set_option maxRecDepth 1000000 in
/-- C6 (counterexample): in a block where the start marker occurs twice
and the end marker is absent, the extracted section stops at the second
occurrence of the start marker instead of running to end-of-string as
the claim states. -/
theorem c6_counterexample :
    extractSection (str "Common Symptoms:") (str "General Advice")
        (str "Common Symptoms: a Common Symptoms: b") = str "a" ∧
    pyStripWs (str " a Common Symptoms: b") = str "a Common Symptoms: b" ∧
    str "a" ≠ str "a Common Symptoms: b" := by
  refine ⟨by decide, by decide, by decide⟩

/-- C6 (amended): extraction never fails; when the start marker occurs
exactly once (the split has exactly two segments) and the end marker is
absent from the block, the extracted section is the whole text after
the start marker up to end-of-string, stripped; and a block on which no
rule fires is skipped with scanning proceeding to later blocks, a
missing marker in the composite rule yielding an empty section. -/
theorem c6_amended (startM stopM block a b lmsg blockNF : Str) (rest : List Str)
    (hsplit : splitOnSub startM block = [a, b])
    (hstop : ¬ stopM <:+: block)
    (hrule : ruleOf lmsg blockNF = none)
    (hov : containsSub (str "Overview:") blockNF = false) :
    block = a ++ startM ++ b ∧
    extractSection startM stopM block = pyStripWs b ∧
    scanBlocks lmsg (blockNF :: rest) = scanBlocks lmsg rest ∧
    rule6Overview blockNF = [] := by
  have hblk := splitOnSub_pair hsplit
  refine ⟨hblk, ?_, ?_, ?_⟩
  · rw [extractSection, hsplit]
    have hgd : ([a, b].getD 1 []) = b := rfl
    rw [hgd]
    have hbs : ¬ stopM <:+: b := fun hc => hstop (hc.trans (by
      rw [hblk]
      exact (List.suffix_append _ _).isInfix))
    rw [splitOnSub_of_absent hbs]
    rfl
  · simp [scanBlocks, hrule]
  · simp [rule6Overview, hov]

set_option maxRecDepth 1000000 in
/-- Witness for C6 (amended) on a block with a single start marker and
no end marker, plus a marker-free block for the skip clauses. -/
theorem c6_witness :
    str "Common Symptoms: dizziness"
      = str "" ++ str "Common Symptoms:" ++ str " dizziness" ∧
    extractSection (str "Common Symptoms:") (str "General Advice")
        (str "Common Symptoms: dizziness") = pyStripWs (str " dizziness") ∧
    scanBlocks (str "hello") (str "plain text" :: []) = scanBlocks (str "hello") [] ∧
    rule6Overview (str "plain text") = [] :=
  c6_amended (str "Common Symptoms:") (str "General Advice")
    (str "Common Symptoms: dizziness") (str "") (str " dizziness")
    (str "hello") (str "plain text") []
    (by decide) (by decide) (by decide) (by decide)

set_option maxRecDepth 1000000 in
/-- C8 (Scenario B): message "tell me about flu", one context block with
the four labeled sections, generation returning empty, fallback enabled
— the reply is the three titled sections (Overview plain, Common
Symptoms bulleted, General Advice bulleted) joined by blank lines, and
no emergency is flagged. -/
theorem c8_scenario_b :
    (build_reply ⟨true, true, false, true, true⟩
        ⟨Except.ok [str "Overview: Flu is a virus.\nCommon Symptoms: Fever, cough\nGeneral Advice Rest and fluids\nPrevention wash hands"],
          fun _ => Except.ok [], fun _ _ => Except.ok []⟩
        (str "tell me about flu")).reply
      = str "**Overview:**\nFlu is a virus." ++ str "\n\n"
        ++ str "**Common Symptoms:**\n- Fever, cough" ++ str "\n\n"
        ++ str "**General Advice / Self-care:**\n- Rest and fluids" ∧
    (build_reply ⟨true, true, false, true, true⟩
        ⟨Except.ok [str "Overview: Flu is a virus.\nCommon Symptoms: Fever, cough\nGeneral Advice Rest and fluids\nPrevention wash hands"],
          fun _ => Except.ok [], fun _ _ => Except.ok []⟩
        (str "tell me about flu")).emergency_recommended = false := by
  refine ⟨by decide, by decide⟩

set_option maxRecDepth 1000000 in
/-- C9 (counterexample): on the single line "- aspirin-" the formatter
also strips the trailing hyphen, so the output is not the one the claim
predicts (trailing hyphen preserved). -/
theorem c9_counterexample :
    format_as_markdown (str "T") (str "- aspirin-") = str "**T:**\n- aspirin" ∧
    str "**T:**\n- aspirin" ≠ str "**T:**\n- aspirin-" := by
  refine ⟨by decide, by decide⟩

/-- C10: `format_as_markdown` always yields a non-empty string starting
with the bolded title and a newline; consequently, for every message
and non-empty context the fallback tier resolves to a non-empty answer
and its inner default string "Sorry, I could not generate a response."
is never the result. -/
theorem c10_default_unreachable (title text message : Str) (ctx : List Str)
    (hctx : ctx ≠ []) :
    format_as_markdown title text ≠ [] ∧
    (str "**" ++ title ++ str ":**\n") <+: format_as_markdown title text ∧
    fallbackTier message ctx [] ≠ [] ∧
    fallbackTier message ctx [] ≠ innerDefault :=
  ⟨format_as_markdown_ne_nil title text, format_as_markdown_bold_prefix title text,
   (fallbackTier_resolves message ctx hctx).1, (fallbackTier_resolves message ctx hctx).2⟩

set_option maxRecDepth 1000000 in
/-- Witness for C10 on a one-block context. -/
theorem c10_witness :
    format_as_markdown (str "T") (str "x") ≠ [] ∧
    (str "**" ++ str "T" ++ str ":**\n") <+: format_as_markdown (str "T") (str "x") ∧
    fallbackTier (str "hi") [str "some document"] [] ≠ [] ∧
    fallbackTier (str "hi") [str "some document"] [] ≠ innerDefault :=
  c10_default_unreachable (str "T") (str "x") (str "hi") [str "some document"]
    (by decide)
